import Mathlib

/-!
Verification of the multi-agent-template repository.

The repository ships three Python scripts under `scripts/`:
`insert-learning-systems.py` (inserts a documentation section into a
markdown file), `external-models.py` (phase-based OpenAI model dispatch),
and `serve-docs.py` (a local doc server).  The learning/memory subsystem
described by the specification (RecordStore, SimilarityIndex, HybridSearch,
ContextAssembler, PatternRecommender, UsageLedger) is documented in the
repository but its implementation is not part of the source tree; those
components are modelled here from the specification text and so marked.
The script behaviour is embedded directly from the Python source.
-/

/- ### Embedding of scripts/insert-learning-systems.py -/

/-- `findSub marker content` returns the least index `i` such that `marker`
is a contiguous substring of `content` starting at `i`, or `none`.
This is Python's `content.find(marker)` from line 12 of the script
(`-1` becomes `none`). -/
def findSub (marker : List Char) : List Char → Option Nat
  | [] => if marker.isPrefixOf [] then some 0 else none
  | c :: t =>
    if marker.isPrefixOf (c :: t) then some 0
    else (findSub marker t).map (· + 1)

/-- The insertion marker searched for by the script (line 11). -/
def insertion_marker : List Char := String.toList "## Usage Analytics"

/-- The content-transforming core of `insert-learning-systems.py`:
find the marker; on failure the script prints an error and exits 1
(modelled as `none`); on success it builds
`content[:insertion_point] + learning_systems_section + content[insertion_point:]`
(line 384).  The inserted section text is passed as the parameter `sect`;
in the script it is the fixed `learning_systems_section` literal. -/
def insertScript (content sect : List Char) : Option (List Char) :=
  match findSub insertion_marker content with
  | none => none
  | some i => some (content.take i ++ sect ++ content.drop i)

/-- The file writes the script performs (lines 387-388): on success exactly
one write, to `docs/FRAMEWORK-OVERVIEW-new.md`; the original file is only
opened for reading (line 7). -/
def scriptWrites (content sect : List Char) : List (String × List Char) :=
  match insertScript content sect with
  | none => []
  | some out => [("docs/FRAMEWORK-OVERVIEW-new.md", out)]

/-- The path the script reads from (line 7). -/
def inputPath : String := "docs/FRAMEWORK-OVERVIEW.md"

/- ### Embedding of scripts/external-models.py -/

namespace ExternalModels

/-- The phase-to-model mapping from lines 56-60 of the script. -/
def model_map : List (String × String) :=
  [("research", "gpt-4o"), ("planning", "o1-preview"), ("testing", "gpt-4o")]

/-- Observable outcome of running `main`: the process exit status
(`0` = fell off the end successfully), whether the OpenAI API was called,
and which model was selected (if any). -/
structure MainOutcome where
  exitCode : Nat
  apiCalled : Bool
  modelUsed : Option String
deriving Repr, DecidableEq

/-- `main` from lines 46-75.  `argv` is Python's `sys.argv` (element 0 is
the program name).  The network call is abstracted as the function `api`
(returning `none` when `call_openai_model` returns `None`). -/
def main (argv : List String) (api : String → String → Option String) : MainOutcome :=
  if argv.length < 3 then ⟨1, false, none⟩
  else
    let phase := argv.getD 1 ""
    let prompt := argv.getD 2 ""
    match model_map.lookup phase with
    | none => ⟨1, false, none⟩
    | some m =>
      match api m prompt with
      | some _ => ⟨0, true, some m⟩
      | none => ⟨1, true, some m⟩

/-- Message object inside an OpenAI chat completion choice. -/
structure OAIMessage where
  role : String
  content : String

/-- One element of the `choices` array of a chat completion response. -/
structure OAIChoice where
  message : OAIMessage

/-- A parsed OpenAI chat completion response body. -/
structure OAIResponse where
  choices : List OAIChoice

/-- Outcome of the HTTP request inside the `try` block of
`call_openai_model` (lines 34-44): either a successfully parsed JSON body,
or any raised exception (network error, non-2xx status via
`raise_for_status`, JSON decode error) carried as a message. -/
inductive HttpOutcome where
  | ok (r : OAIResponse)
  | exn (e : String)

/-- `call_openai_model` from lines 16-44.  `apiKey` is
`os.getenv('OPENAI_API_KEY')`.  Missing key returns `None` (line 21);
any exception in the `try` block is caught and returns `None` (line 44);
an empty `choices` array makes `['choices'][0]` raise `IndexError`, also
caught; otherwise the first choice's message content is returned. -/
def call_openai_model (apiKey : Option String) (res : HttpOutcome) : Option String :=
  match apiKey with
  | none => none
  | some _ =>
    match res with
    | .exn _ => none
    | .ok r =>
      match r.choices with
      | [] => none
      | c :: _ => some c.message.content

end ExternalModels

/- ### Spec-modelled learning subsystem

The components below are documented in the repository (the
`learning_systems_section` text of `insert-learning-systems.py` and the
specification) but their implementation is not part of the source tree;
each definition is therefore modelled from the specification text. -/

/-- Modelled from the spec: the `OrchestrationRecord` data model (§3) —
id, pattern name, participating agents, task description, result payload,
success flag, cost and a timestamp.  Token breakdown and parameters are
omitted; no claim touches them. -/
structure OrchestrationRecord where
  id : Nat
  pattern : String
  agents : List String
  task : String
  result : String
  success : Bool
  cost : ℚ
  timestamp : Nat
deriving Repr, DecidableEq

/-- Modelled from the spec: RecordStore error taxonomy (§4.1, §7) —
`DuplicateId` on save collision, `NotFound` for an unknown id. -/
inductive StoreError where
  | duplicateId
  | notFound
deriving Repr, DecidableEq

/-- Modelled from the spec: the durable record store (§4.1), a ledger of
orchestration records. -/
structure RecordStore where
  records : List OrchestrationRecord
deriving Repr, DecidableEq

namespace RecordStore

/-- The empty store. -/
def empty : RecordStore := ⟨[]⟩

/-- Modelled from the spec: `save(record) -> id`, fails with `DuplicateId`
if id collision (§4.1). -/
def save (st : RecordStore) (r : OrchestrationRecord) :
    Except StoreError (RecordStore × Nat) :=
  if st.records.any (fun s => s.id == r.id) then .error .duplicateId
  else .ok (⟨st.records ++ [r]⟩, r.id)

/-- Modelled from the spec: `get(id) -> record | NotFound` (§4.1). -/
def get (st : RecordStore) (i : Nat) : Except StoreError OrchestrationRecord :=
  match st.records.find? (fun s => s.id == i) with
  | some r => .ok r
  | none => .error .notFound

end RecordStore

/-- Modelled from the spec: the circuit breaker state machine of the
similarity index (§4.2, §9): `closed -> opened -> halfOpen -> closed`;
while `opened` every call short-circuits to `Unavailable`. -/
inductive CircuitState where
  | closed
  | opened
  | halfOpen
deriving Repr, DecidableEq

/-- Modelled from the spec: the semantic index (§4.2) — one embedding
(vector of rationals standing in for floats) per record id, plus the
breaker state. -/
structure SimilarityIndex where
  entries : List (Nat × List ℚ)
  circuit : CircuitState
deriving Repr, DecidableEq

namespace SimilarityIndex

/-- Modelled from the spec: upsert semantics (§3) — if the id is present
its vector is replaced in place, otherwise the pair is appended. -/
def upsert (idx : SimilarityIndex) (i : Nat) (v : List ℚ) : SimilarityIndex :=
  if idx.entries.any (fun p => p.1 == i) then
    { idx with entries := idx.entries.map (fun p => if p.1 == i then (i, v) else p) }
  else
    { idx with entries := idx.entries ++ [(i, v)] }

/-- Modelled from the spec: `indexAsync(id, text)` (§4.2) — computes an
embedding of the text (the embedding provider is the opaque parameter
`embed`) and upserts it. -/
def indexAsync (idx : SimilarityIndex) (i : Nat) (text : String)
    (embed : String → List ℚ) : SimilarityIndex :=
  upsert idx i (embed text)

end SimilarityIndex

namespace HybridSearch

/-- Score of id `i` in a component result list, `none` when the id was not
hit by that component. -/
def lookupScore (l : List (Nat × ℚ)) (i : Nat) : Option ℚ :=
  (l.find? (fun p => p.1 == i)).map Prod.snd

/-- Modelled from the spec (§4.3): the blended score of one id —
`0.7 * sim + 0.3 * kw` when both components hit it, `0.7 * sim` for a
similarity-only hit, `0.3 * kw` for a keyword-only hit. -/
def combineAt (simR kwR : List (Nat × ℚ)) (i : Nat) : ℚ :=
  match lookupScore simR i, lookupScore kwR i with
  | some s, some k => 7/10 * s + 3/10 * k
  | some s, none => 7/10 * s
  | none, some k => 3/10 * k
  | none, none => 0

/-- One combined entry per id hit by either component. -/
def mergeScores (simR kwR : List (Nat × ℚ)) : List (Nat × ℚ) :=
  ((simR.map Prod.fst ++ kwR.map Prod.fst).dedup).map
    (fun i => (i, combineAt simR kwR i))

/-- Insert into a list sorted by descending score. -/
def insertDesc (x : Nat × ℚ) : List (Nat × ℚ) → List (Nat × ℚ)
  | [] => [x]
  | y :: t => if y.2 ≤ x.2 then x :: y :: t else y :: insertDesc x t

/-- Sort by descending combined score (the spec's timestamp tie-break is
not modelled: ids in this model carry no timestamp and no claim tests
tie order). -/
def sortByScore : List (Nat × ℚ) → List (Nat × ℚ)
  | [] => []
  | x :: t => insertDesc x (sortByScore t)

/-- Result of a hybrid search: the ranked hits and an observable flag
telling whether the call degraded to keyword-only mode. -/
structure HybridResult where
  hits : List (Nat × ℚ)
  degraded : Bool
deriving Repr, DecidableEq

/-- Modelled from the spec (§4.3): `search` over the two component result
sets for a query — `simR` is `SimilarityIndex.search`'s (normalized)
output and `kwR` is `RecordStore.searchKeyword`'s (normalized) output for
the same query.  When the breaker is open the similarity side signals
`Unavailable` and the result degrades deterministically to the pure
keyword ranking with the degraded flag set; otherwise scores are blended
70/30 and sorted descending. -/
def search (circuit : CircuitState) (simR kwR : List (Nat × ℚ)) : HybridResult :=
  if circuit = CircuitState.opened then ⟨kwR, true⟩
  else ⟨sortByScore (mergeScores simR kwR), false⟩

end HybridSearch

/-- Modelled from the spec (§4.4): one ranked candidate for context
assembly — the record id, its combined relevance score from HybridSearch,
and the token cost of its Layer-2 detail.  The fixed small Layer-1 cost
is not modelled; no claim touches it. -/
structure Candidate where
  id : Nat
  score : ℚ
  layer2Cost : Nat
deriving Repr, DecidableEq

/-- Modelled from the spec (§4.4): the assembled context payload —
Layer-2 ids (full detail), Layer-1 ids (index entries for every
candidate), and the reported Layer-2 tokens actually consumed. -/
structure ContextPayload where
  layer2Ids : List Nat
  layer1Ids : List Nat
  layer2Tokens : Nat
deriving Repr, DecidableEq

namespace ContextAssembler

/-- Modelled from the spec (§4.4): walk the ranked candidates in order,
expanding each to Layer 2 while the running total stays within the
available budget, and stop at the first candidate whose inclusion would
overflow it. -/
def selectLayer2 (avail : ℚ) (acc : Nat) : List Candidate → List Candidate
  | [] => []
  | c :: rest =>
    if ((acc + c.layer2Cost : Nat) : ℚ) ≤ avail then
      c :: selectLayer2 avail (acc + c.layer2Cost) rest
    else []

/-- Modelled from the spec (§4.4):
`load(task, budgetTokens, safetyFraction=0.2) -> ContextPayload`.
`cands` is the candidate list for the task, ranked by HybridSearch's
combined score descending.  A fraction `safetyFraction` of the budget is
reserved as headroom; Layer-2 detail is loaded greedily within the rest;
every candidate keeps a Layer-1 index entry.  The LRU cache of the spec
is a performance device invisible in the result and is not modelled. -/
def load (cands : List Candidate) (budgetTokens : Nat) (safetyFraction : ℚ) :
    ContextPayload :=
  let avail : ℚ := budgetTokens * (1 - safetyFraction)
  let l2 := selectLayer2 avail 0 cands
  { layer2Ids := l2.map Candidate.id
    layer1Ids := cands.map Candidate.id
    layer2Tokens := (l2.map Candidate.layer2Cost).sum }

end ContextAssembler

/-- Modelled from the spec (§4.7, §8): the ledger's alert level. -/
inductive AlertLevel where
  | none
  | warning
  | critical
deriving Repr, DecidableEq

/-- Modelled from the spec (§3): one `UsageEntry` per orchestration —
token counts, cost, pattern — tagged with the (day, month) period it was
recorded in. -/
structure UsageEntry where
  orchestrationId : Nat
  pattern : String
  tokensIn : Nat
  tokensOut : Nat
  tokensCache : Nat
  cost : ℚ
  day : Nat
  month : Nat
deriving Repr, DecidableEq

/-- Modelled from the spec (§4.7): the append-only usage ledger with its
daily and monthly caps and the current period. -/
structure UsageLedger where
  entries : List UsageEntry
  dailyBudget : ℚ
  monthlyBudget : ℚ
  currentDay : Nat
  currentMonth : Nat
deriving Repr, DecidableEq

namespace UsageLedger

/-- A fresh ledger with no recorded entries. -/
def init (dailyBudget monthlyBudget : ℚ) (day month : Nat) : UsageLedger :=
  ⟨[], dailyBudget, monthlyBudget, day, month⟩

/-- Modelled from the spec (§4.7): `record(usageEntry)` — append-only. -/
def record (l : UsageLedger) (e : UsageEntry) : UsageLedger :=
  { l with entries := l.entries ++ [e] }

/-- Spend recorded in the current day of the current month. -/
def dailySpend (l : UsageLedger) : ℚ :=
  ((l.entries.filter (fun e => e.day == l.currentDay && e.month == l.currentMonth)).map
    UsageEntry.cost).sum

/-- Spend recorded in the current month. -/
def monthlySpend (l : UsageLedger) : ℚ :=
  ((l.entries.filter (fun e => e.month == l.currentMonth)).map UsageEntry.cost).sum

/-- Modelled from the spec (§4.7, §8): the alert level against one cap —
`none` below 80% of the cap, `warning` from exactly 80%, `critical` from
exactly 95%. -/
def levelFor (spend cap : ℚ) : AlertLevel :=
  if 95/100 * cap ≤ spend then .critical
  else if 80/100 * cap ≤ spend then .warning
  else .none

/-- The worse of two alert levels. -/
def worse : AlertLevel → AlertLevel → AlertLevel
  | .critical, _ => .critical
  | _, .critical => .critical
  | .warning, _ => .warning
  | _, .warning => .warning
  | .none, .none => .none

/-- Modelled from the spec (§4.7): the record returned by `status()`. -/
structure Status where
  dailySpend : ℚ
  monthlySpend : ℚ
  dailyBudget : ℚ
  monthlyBudget : ℚ
  alertLevel : AlertLevel
deriving Repr, DecidableEq

/-- Modelled from the spec (§4.7): `status()` reports both spends, both
caps, and the alert level of whichever cap is closer to being breached. -/
def status (l : UsageLedger) : Status :=
  ⟨dailySpend l, monthlySpend l, l.dailyBudget, l.monthlyBudget,
   worse (levelFor (dailySpend l) l.dailyBudget)
     (levelFor (monthlySpend l) l.monthlyBudget)⟩

end UsageLedger

namespace PatternRecommender

/-- Modelled from the spec (§4.6, glossary): the empirical success rate
shrunk toward a prior of 1/2 with pseudo-count 2 (Laplace's rule of
succession), the standard small-sample correction — `(s + 1) / (n + 2)`. -/
def shrunkRate (succ attempts : Nat) : ℚ :=
  ((succ : ℚ) + 1) / ((attempts : ℚ) + 2)

/-- Modelled from the spec (§4.6): one ranked recommendation. -/
structure Recommendation where
  pattern : String
  team : List String
  confidence : ℚ
deriving Repr, DecidableEq

/-- The distinct (pattern, team signature) keys of the retrieved records. -/
def groupKeys (recs : List (OrchestrationRecord × ℚ)) : List (String × List String) :=
  (recs.map (fun p => (p.1.pattern, p.1.agents))).dedup

/-- Modelled from the spec (§4.6): the confidence of one group — its
shrunk success rate weighted by the average semantic similarity of its
contributing records to the query. -/
def groupConfidence (recs : List (OrchestrationRecord × ℚ))
    (key : String × List String) : ℚ :=
  let grp := recs.filter (fun p => p.1.pattern == key.1 && p.1.agents == key.2)
  let succ := (grp.filter (fun p => p.1.success)).length
  let avgSim := (grp.map Prod.snd).sum / (grp.length : ℚ)
  shrunkRate succ grp.length * avgSim

/-- Insert into a recommendation list sorted by descending confidence. -/
def insertRec (x : Recommendation) : List Recommendation → List Recommendation
  | [] => [x]
  | y :: t => if y.confidence ≤ x.confidence then x :: y :: t else y :: insertRec x t

/-- Sort recommendations by descending confidence (the spec's secondary
tie-break by lower average cost is not modelled; no claim tests ties). -/
def sortRecs : List Recommendation → List Recommendation
  | [] => []
  | x :: t => insertRec x (sortRecs t)

/-- Modelled from the spec (§4.6): `recommend(taskDescription)`.  `recs`
is the list of similar past records retrieved via HybridSearch for the
task, each paired with its semantic similarity to the query.  Records are
grouped by (pattern, team signature); groups with zero attempts never
arise (keys come from the records themselves); each group is scored and
the groups are ranked by confidence descending. -/
def recommend (recs : List (OrchestrationRecord × ℚ)) : List Recommendation :=
  sortRecs ((groupKeys recs).map (fun key => ⟨key.1, key.2, groupConfidence recs key⟩))

end PatternRecommender

/- ### Helper lemmas -/

/-- `findSub` returns exactly the least index at which the marker occurs. -/
theorem findSub_eq_of_first (marker content : List Char) (i : Nat)
    (hocc : marker.isPrefixOf (content.drop i) = true)
    (hfirst : ∀ j < i, marker.isPrefixOf (content.drop j) = false) :
    findSub marker content = some i := by
  induction content generalizing i with
  | nil =>
    cases i with
    | zero => simpa [findSub] using hocc
    | succ n =>
      have h0 := hfirst 0 (Nat.succ_pos n)
      simp only [List.drop_nil] at h0 hocc
      rw [hocc] at h0
      exact Bool.noConfusion h0
  | cons c t ih =>
    cases i with
    | zero =>
      simp only [List.drop_zero] at hocc
      simp [findSub, hocc]
    | succ n =>
      have h0 := hfirst 0 (Nat.succ_pos n)
      simp only [List.drop_zero] at h0
      rw [findSub, if_neg (by simp [h0])]
      have ht : findSub marker t = some n := by
        apply ih
        · simpa using hocc
        · intro j hj
          simpa using hfirst (j + 1) (Nat.succ_lt_succ hj)
      simp [ht]

/-- `find?` over a list whose prefix all fails the predicate finds the
appended element. -/
theorem find?_append_last {α : Type} {p : α → Bool} {l : List α} {r : α}
    (hl : ∀ s ∈ l, p s = false) (hr : p r = true) :
    (l ++ [r]).find? p = some r := by
  induction l with
  | nil => simp [List.find?, hr]
  | cons a t ih =>
    have ha := hl a (List.mem_cons_self a t)
    simp only [List.cons_append, List.find?, ha]
    exact ih fun s hs => hl s (List.mem_cons_of_mem a hs)

/- ### Claim theorems for the scripts -/

/-- C8: whenever the marker `## Usage Analytics` first occurs at character
index `i` of the input document, the script produces
`content[:i] ++ sect ++ content[i:]`; the output length is the original
length plus the section length, every character of the original document
is preserved in order (the original is a sublist of the output), and the
original file's path is never among the script's write targets. -/
theorem insert_script_inserts_at_marker (content sect : List Char) (i : Nat)
    (hocc : insertion_marker.isPrefixOf (content.drop i) = true)
    (hfirst : ∀ j < i, insertion_marker.isPrefixOf (content.drop j) = false) :
    insertScript content sect = some (content.take i ++ sect ++ content.drop i) ∧
    (content.take i ++ sect ++ content.drop i).length = content.length + sect.length ∧
    content.Sublist (content.take i ++ sect ++ content.drop i) ∧
    inputPath ∉ (scriptWrites content sect).map Prod.fst := by
  have hf : findSub insertion_marker content = some i :=
    findSub_eq_of_first _ _ _ hocc hfirst
  have h1 : insertScript content sect =
      some (content.take i ++ sect ++ content.drop i) := by
    simp [insertScript, hf]
  refine ⟨h1, ?_, ?_, ?_⟩
  · simp only [List.length_append, List.length_take, List.length_drop]
    omega
  · have h2 : List.Sublist (content.drop i) (sect ++ content.drop i) :=
      List.sublist_append_right _ _
    have h3 : List.Sublist (content.take i ++ content.drop i)
        (content.take i ++ (sect ++ content.drop i)) := h2.append_left _
    rw [List.take_append_drop] at h3
    simpa [List.append_assoc] using h3
  · simp only [scriptWrites, h1, List.map_cons, List.map_nil, List.mem_singleton]
    decide

/-- Concrete instance of the C8 insertion theorem: the marker of
`A\n## Usage Analytics` first occurs at index 2. -/
theorem insert_script_inserts_at_marker_witness :
    insertScript (String.toList "A\n## Usage Analytics") (String.toList "X") =
      some ((String.toList "A\n## Usage Analytics").take 2 ++ String.toList "X" ++
        (String.toList "A\n## Usage Analytics").drop 2) ∧
    ((String.toList "A\n## Usage Analytics").take 2 ++ String.toList "X" ++
        (String.toList "A\n## Usage Analytics").drop 2).length =
      (String.toList "A\n## Usage Analytics").length + (String.toList "X").length ∧
    (String.toList "A\n## Usage Analytics").Sublist
      ((String.toList "A\n## Usage Analytics").take 2 ++ String.toList "X" ++
        (String.toList "A\n## Usage Analytics").drop 2) ∧
    inputPath ∉
      (scriptWrites (String.toList "A\n## Usage Analytics") (String.toList "X")).map
        Prod.fst :=
  insert_script_inserts_at_marker (String.toList "A\n## Usage Analytics")
    (String.toList "X") 2 (by decide) (by decide)

/-- C9: `main` of `external-models.py` exits with status 1 without calling
the OpenAI API when fewer than two command-line arguments are supplied or
the phase is unknown; for a valid phase it selects `gpt-4o` for research
and testing and `o1-preview` for planning, and calls the API. -/
theorem external_models_main_dispatch (argv : List String)
    (api : String → String → Option String) :
    (argv.length < 3 → ExternalModels.main argv api = ⟨1, false, none⟩) ∧
    (∀ phase, phase = argv.getD 1 "" → phase ≠ "research" → phase ≠ "planning" →
      phase ≠ "testing" → ExternalModels.main argv api = ⟨1, false, none⟩) ∧
    (3 ≤ argv.length → (argv.getD 1 "" = "research" ∨ argv.getD 1 "" = "testing") →
      (ExternalModels.main argv api).modelUsed = some "gpt-4o" ∧
      (ExternalModels.main argv api).apiCalled = true) ∧
    (3 ≤ argv.length → argv.getD 1 "" = "planning" →
      (ExternalModels.main argv api).modelUsed = some "o1-preview" ∧
      (ExternalModels.main argv api).apiCalled = true) := by
  by_cases hlen : argv.length < 3
  · exact ⟨fun _ => by simp [ExternalModels.main, hlen],
      fun phase _ _ _ _ => by simp [ExternalModels.main, hlen],
      fun h3 => absurd h3 (by omega),
      fun h3 _ => absurd h3 (by omega)⟩
  · have hstep : ∀ m : String, ExternalModels.model_map.lookup (argv.getD 1 "") = some m →
        (ExternalModels.main argv api).modelUsed = some m ∧
        (ExternalModels.main argv api).apiCalled = true := by
      intro m hl
      have hmain : ExternalModels.main argv api =
          match api m (argv.getD 2 "") with
          | some _ => ⟨0, true, some m⟩
          | none => ⟨1, true, some m⟩ := by
        simp only [ExternalModels.main, if_neg hlen]
        rw [hl]
      rw [hmain]
      cases hapi : api m (argv.getD 2 "") <;> exact ⟨rfl, rfl⟩
    refine ⟨fun h => absurd h hlen, ?_, ?_, ?_⟩
    · intro phase hph h1 h2 h3
      rw [hph] at h1 h2 h3
      have b1 : (argv.getD 1 "" == "research") = false := beq_eq_false_iff_ne.mpr h1
      have b2 : (argv.getD 1 "" == "planning") = false := beq_eq_false_iff_ne.mpr h2
      have b3 : (argv.getD 1 "" == "testing") = false := beq_eq_false_iff_ne.mpr h3
      have hl : ExternalModels.model_map.lookup (argv.getD 1 "") = none := by
        simp only [ExternalModels.model_map, List.lookup, b1, b2, b3]
      simp only [ExternalModels.main, if_neg hlen]
      rw [hl]
    · intro _ hph
      rcases hph with h | h
      · exact hstep "gpt-4o" (by rw [h]; rfl)
      · exact hstep "gpt-4o" (by rw [h]; rfl)
    · intro _ h
      exact hstep "o1-preview" (by rw [h]; rfl)

/-- Concrete instances of the C9 dispatch theorem: one missing argument,
an unknown phase, and each valid phase. -/
theorem external_models_main_dispatch_witness :
    ExternalModels.main ["external-models.py", "research"] (fun _ _ => some "ok") =
      ⟨1, false, none⟩ ∧
    ExternalModels.main ["external-models.py", "deploy", "p"] (fun _ _ => some "ok") =
      ⟨1, false, none⟩ ∧
    (ExternalModels.main ["external-models.py", "research", "p"]
      (fun _ _ => some "ok")).modelUsed = some "gpt-4o" ∧
    (ExternalModels.main ["external-models.py", "testing", "p"]
      (fun _ _ => some "ok")).modelUsed = some "gpt-4o" ∧
    (ExternalModels.main ["external-models.py", "planning", "p"]
      (fun _ _ => some "ok")).modelUsed = some "o1-preview" :=
  ⟨(external_models_main_dispatch ["external-models.py", "research"]
      (fun _ _ => some "ok")).1 (by decide),
   (external_models_main_dispatch ["external-models.py", "deploy", "p"]
      (fun _ _ => some "ok")).2.1 "deploy" rfl (by decide) (by decide) (by decide),
   ((external_models_main_dispatch ["external-models.py", "research", "p"]
      (fun _ _ => some "ok")).2.2.1 (by decide) (Or.inl rfl)).1,
   ((external_models_main_dispatch ["external-models.py", "testing", "p"]
      (fun _ _ => some "ok")).2.2.1 (by decide) (Or.inr rfl)).1,
   ((external_models_main_dispatch ["external-models.py", "planning", "p"]
      (fun _ _ => some "ok")).2.2.2 (by decide) rfl).1⟩

/-- C10: `call_openai_model` returns `None` whenever the API key is unset
or the HTTP request raises (every exception is caught, never propagated —
the embedding is a total function returning an `Option`); on a successful
request it returns the first choice's message content. -/
theorem call_openai_model_error_handling (apiKey : Option String)
    (res : ExternalModels.HttpOutcome) :
    (apiKey = none → ExternalModels.call_openai_model apiKey res = none) ∧
    (∀ e, res = ExternalModels.HttpOutcome.exn e →
      ExternalModels.call_openai_model apiKey res = none) ∧
    (∀ k r, apiKey = some k → res = ExternalModels.HttpOutcome.ok r →
      ExternalModels.call_openai_model apiKey res =
        r.choices.head?.map (fun c => c.message.content)) := by
  refine ⟨?_, ?_, ?_⟩
  · intro h
    subst h
    rfl
  · intro e h
    subst h
    cases apiKey <;> rfl
  · intro k r hk hr
    subst hk
    subst hr
    obtain ⟨cs⟩ := r
    cases cs <;> rfl

/-- Concrete instances of the C10 error-handling theorem: missing key,
raised exception, and a successful parsed response. -/
theorem call_openai_model_error_handling_witness :
    ExternalModels.call_openai_model none (ExternalModels.HttpOutcome.exn "timeout") =
      none ∧
    ExternalModels.call_openai_model (some "sk-1")
      (ExternalModels.HttpOutcome.exn "timeout") = none ∧
    ExternalModels.call_openai_model (some "sk-1")
      (ExternalModels.HttpOutcome.ok ⟨[⟨⟨"assistant", "hello"⟩⟩]⟩) = some "hello" :=
  ⟨(call_openai_model_error_handling none
      (ExternalModels.HttpOutcome.exn "timeout")).1 rfl,
   (call_openai_model_error_handling (some "sk-1")
      (ExternalModels.HttpOutcome.exn "timeout")).2.1 "timeout" rfl,
   (call_openai_model_error_handling (some "sk-1")
      (ExternalModels.HttpOutcome.ok ⟨[⟨⟨"assistant", "hello"⟩⟩]⟩)).2.2 "sk-1"
      ⟨[⟨⟨"assistant", "hello"⟩⟩]⟩ rfl rfl⟩

/- ### Claim theorems for the spec-modelled subsystem -/

/-- C2: whenever the similarity index's circuit breaker is open, a hybrid
search returns exactly the keyword result list — no blending — and the
degraded flag is observable. -/
theorem hybridSearch_open_circuit_degrades (simR kwR : List (Nat × ℚ)) :
    HybridSearch.search CircuitState.opened simR kwR =
      { hits := kwR, degraded := true } := by
  simp [HybridSearch.search]

/-- C4: for a fresh id, `get (save r)` returns a record equal to `r`; for
an id already stored, `save` fails with `DuplicateId`. -/
theorem recordStore_save_get_roundtrip (st : RecordStore) (r : OrchestrationRecord)
    (hfresh : ∀ s ∈ st.records, s.id ≠ r.id) :
    (∃ st', RecordStore.save st r = .ok (st', r.id) ∧
      RecordStore.get st' r.id = .ok r) ∧
    ∀ (st₂ : RecordStore) (r₂ : OrchestrationRecord),
      (∃ s ∈ st₂.records, s.id = r₂.id) →
      RecordStore.save st₂ r₂ = .error .duplicateId := by
  constructor
  · have hany : st.records.any (fun s => s.id == r.id) = false := by
      simp only [List.any_eq_false, beq_iff_eq]
      simpa using hfresh
    refine ⟨⟨st.records ++ [r]⟩, ?_, ?_⟩
    · simp [RecordStore.save, hany]
    · have hfind : (st.records ++ [r]).find? (fun s => s.id == r.id) = some r := by
        apply find?_append_last
        · intro s hs
          simpa using hfresh s hs
        · simp
      simp [RecordStore.get, hfind]
  · rintro st₂ r₂ ⟨s, hs, hid⟩
    have hany : st₂.records.any (fun x => x.id == r₂.id) = true := by
      simp only [List.any_eq_true, beq_iff_eq]
      exact ⟨s, hs, hid⟩
    simp [RecordStore.save, hany]

/-- Concrete instance of the C4 round-trip theorem on the empty store. -/
theorem recordStore_save_get_roundtrip_witness :
    (∃ st', RecordStore.save RecordStore.empty
        ⟨7, "parallel", ["a"], "t", "ok", true, 1, 0⟩ = .ok (st', 7) ∧
      RecordStore.get st' 7 = .ok ⟨7, "parallel", ["a"], "t", "ok", true, 1, 0⟩) ∧
    ∀ (st₂ : RecordStore) (r₂ : OrchestrationRecord),
      (∃ s ∈ st₂.records, s.id = r₂.id) →
      RecordStore.save st₂ r₂ = .error .duplicateId :=
  recordStore_save_get_roundtrip RecordStore.empty
    ⟨7, "parallel", ["a"], "t", "ok", true, 1, 0⟩ (by simp [RecordStore.empty])

/-- After an upsert, an id stored at most once is stored exactly once. -/
theorem countP_upsert (idx : SimilarityIndex) (i : Nat) (v : List ℚ)
    (h : idx.entries.countP (fun p => p.1 == i) ≤ 1) :
    (SimilarityIndex.upsert idx i v).entries.countP (fun p => p.1 == i) = 1 := by
  by_cases hany : idx.entries.any (fun p => p.1 == i) = true
  · have hpos : 0 < idx.entries.countP (fun p => p.1 == i) := by
      rw [List.countP_pos_iff]
      simpa [List.any_eq_true] using hany
    have hone : idx.entries.countP (fun p => p.1 == i) = 1 := by omega
    simp only [SimilarityIndex.upsert, if_pos hany]
    rw [List.countP_map]
    rw [← hone]
    apply List.countP_congr
    intro p _
    by_cases hp : p.1 = i <;> simp [Function.comp, hp]
  · have hany' : idx.entries.any (fun p => p.1 == i) = false := by
      rcases Bool.eq_false_or_eq_true (idx.entries.any (fun p => p.1 == i)) with hb | hb
      · exact absurd hb hany
      · exact hb
    have hzero : idx.entries.countP (fun p => p.1 == i) = 0 := by
      rw [List.countP_eq_zero]
      intro p hp
      have hx := List.any_eq_false.mp hany' p hp
      simpa using hx
    simp only [SimilarityIndex.upsert, hany', Bool.false_eq_true, if_false]
    rw [List.countP_append, hzero]
    simp

/-- Replacing the vector of an id present in the entry list makes `find?`
for that id return the new pair. -/
theorem find?_map_replace (l : List (Nat × List ℚ)) (i : Nat) (v : List ℚ)
    (h : l.any (fun p => p.1 == i) = true) :
    (l.map (fun p => if p.1 == i then (i, v) else p)).find?
      (fun p => p.1 == i) = some (i, v) := by
  induction l with
  | nil => simp at h
  | cons q t ih =>
    by_cases hq : q.1 = i
    · simp [List.find?, hq]
    · have hq' : (q.1 == i) = false := by simp [hq]
      have hhead : (if (q.1 == i) = true then (i, v) else q) = q :=
        if_neg (by simp [hq])
      rw [List.map_cons, hhead, List.find?_cons_of_neg]
      · apply ih
        simpa [List.any_cons, hq'] using h
      · simp [hq]

/-- After any upsert, `find?` for the id returns exactly the new pair. -/
theorem find?_upsert (idx : SimilarityIndex) (i : Nat) (v : List ℚ) :
    (SimilarityIndex.upsert idx i v).entries.find? (fun p => p.1 == i) =
      some (i, v) := by
  by_cases hany : idx.entries.any (fun p => p.1 == i) = true
  · simp only [SimilarityIndex.upsert, if_pos hany]
    exact find?_map_replace _ _ _ hany
  · have hany' : idx.entries.any (fun p => p.1 == i) = false := by
      rcases Bool.eq_false_or_eq_true (idx.entries.any (fun p => p.1 == i)) with hb | hb
      · exact absurd hb hany
      · exact hb
    simp only [SimilarityIndex.upsert, hany', Bool.false_eq_true, if_false]
    apply find?_append_last
    · intro p hp
      have hx := List.any_eq_false.mp hany' p hp
      simpa using hx
    · simp

/-- C6: indexing the same id twice leaves exactly one embedding for that
id, and the stored vector is the one from the second call (upsert, not
duplicate). -/
theorem similarityIndex_upsert_idempotent (idx : SimilarityIndex) (i : Nat)
    (t1 t2 : String) (embed : String → List ℚ)
    (h : idx.entries.countP (fun p => p.1 == i) ≤ 1) :
    ((idx.indexAsync i t1 embed).indexAsync i t2 embed).entries.countP
      (fun p => p.1 == i) = 1 ∧
    ((idx.indexAsync i t1 embed).indexAsync i t2 embed).entries.find?
      (fun p => p.1 == i) = some (i, embed t2) := by
  have h1 : (idx.indexAsync i t1 embed).entries.countP (fun p => p.1 == i) = 1 :=
    countP_upsert idx i (embed t1) h
  constructor
  · exact countP_upsert _ i (embed t2) (by omega)
  · exact find?_upsert _ i (embed t2)

/-- Concrete instance of the C6 upsert theorem on an empty index. -/
theorem similarityIndex_upsert_idempotent_witness :
    ((SimilarityIndex.indexAsync (SimilarityIndex.indexAsync ⟨[], .closed⟩ 5 "a"
        (fun _ => [1])) 5 "b" (fun _ => [1])).entries.countP
      (fun p => p.1 == 5) = 1) ∧
    ((SimilarityIndex.indexAsync (SimilarityIndex.indexAsync ⟨[], .closed⟩ 5 "a"
        (fun _ => [1])) 5 "b" (fun _ => [1])).entries.find?
      (fun p => p.1 == 5) = some (5, [1])) :=
  similarityIndex_upsert_idempotent ⟨[], .closed⟩ 5 "a" "b" (fun _ => [1])
    (by simp)

/-- Insertion keeps exactly the elements. -/
theorem mem_insertDesc (x y : Nat × ℚ) (l : List (Nat × ℚ)) :
    y ∈ HybridSearch.insertDesc x l ↔ y ∈ x :: l := by
  induction l with
  | nil => simp [HybridSearch.insertDesc]
  | cons z t ih =>
    by_cases hz : z.2 ≤ x.2
    · simp [HybridSearch.insertDesc, hz]
    · simp only [HybridSearch.insertDesc, if_neg hz, List.mem_cons, ih]
      tauto

/-- Sorting by score keeps exactly the elements. -/
theorem mem_sortByScore (y : Nat × ℚ) (l : List (Nat × ℚ)) :
    y ∈ HybridSearch.sortByScore l ↔ y ∈ l := by
  induction l with
  | nil => simp [HybridSearch.sortByScore]
  | cons x t ih =>
    simp only [HybridSearch.sortByScore, mem_insertDesc, List.mem_cons, ih]

/-- An id with a component score is among that component's ids. -/
theorem lookupScore_some_mem {l : List (Nat × ℚ)} {i : Nat} {s : ℚ}
    (h : HybridSearch.lookupScore l i = some s) : i ∈ l.map Prod.fst := by
  unfold HybridSearch.lookupScore at h
  cases hf : l.find? (fun p => p.1 == i) with
  | none => rw [hf] at h; simp at h
  | some p =>
    have hmem := List.mem_of_find?_eq_some hf
    have hpi : p.1 = i := by simpa using List.find?_some hf
    exact hpi ▸ List.mem_map_of_mem Prod.fst hmem

/-- Every id hit by either component appears in the merged list with its
blended score. -/
theorem combineAt_mem_mergeScores (simR kwR : List (Nat × ℚ)) (i : Nat)
    (hi : i ∈ simR.map Prod.fst ∨ i ∈ kwR.map Prod.fst) :
    (i, HybridSearch.combineAt simR kwR i) ∈ HybridSearch.mergeScores simR kwR := by
  unfold HybridSearch.mergeScores
  apply List.mem_map_of_mem
  rw [List.mem_dedup, List.mem_append]
  exact hi

/-- C1: when the breaker is not open, an id hit by both components gets
combined score `0.7 * sim + 0.3 * kw` in the hybrid result; a
similarity-only hit gets `0.7 * sim`; a keyword-only hit gets `0.3 * kw`. -/
theorem hybridSearch_combined_score (c : CircuitState) (simR kwR : List (Nat × ℚ))
    (i : Nat) (hc : c ≠ CircuitState.opened) :
    (∀ s k, HybridSearch.lookupScore simR i = some s →
      HybridSearch.lookupScore kwR i = some k →
      (i, 7/10 * s + 3/10 * k) ∈ (HybridSearch.search c simR kwR).hits) ∧
    (∀ s, HybridSearch.lookupScore simR i = some s →
      HybridSearch.lookupScore kwR i = none →
      (i, 7/10 * s) ∈ (HybridSearch.search c simR kwR).hits) ∧
    (∀ k, HybridSearch.lookupScore simR i = none →
      HybridSearch.lookupScore kwR i = some k →
      (i, 3/10 * k) ∈ (HybridSearch.search c simR kwR).hits) := by
  have hs : (HybridSearch.search c simR kwR).hits =
      HybridSearch.sortByScore (HybridSearch.mergeScores simR kwR) := by
    simp [HybridSearch.search, hc]
  refine ⟨?_, ?_, ?_⟩
  · intro s k hsim hkw
    rw [hs, mem_sortByScore]
    have := combineAt_mem_mergeScores simR kwR i (Or.inl (lookupScore_some_mem hsim))
    rwa [show HybridSearch.combineAt simR kwR i = 7/10 * s + 3/10 * k by
      unfold HybridSearch.combineAt; rw [hsim, hkw]] at this
  · intro s hsim hkw
    rw [hs, mem_sortByScore]
    have := combineAt_mem_mergeScores simR kwR i (Or.inl (lookupScore_some_mem hsim))
    rwa [show HybridSearch.combineAt simR kwR i = 7/10 * s by
      unfold HybridSearch.combineAt; rw [hsim, hkw]] at this
  · intro k hsim hkw
    rw [hs, mem_sortByScore]
    have := combineAt_mem_mergeScores simR kwR i (Or.inr (lookupScore_some_mem hkw))
    rwa [show HybridSearch.combineAt simR kwR i = 3/10 * k by
      unfold HybridSearch.combineAt; rw [hsim, hkw]] at this

/-- Concrete instance of the C1 blending theorem: id 1 is hit by both
components, id 2 only by similarity, id 3 only by keyword. -/
theorem hybridSearch_combined_score_witness :
    ((1 : Nat), (7:ℚ)/10 * 1 + 3/10 * 3) ∈
      (HybridSearch.search CircuitState.closed [(1, 1), (2, 2)]
        [(1, 3), (3, 4)]).hits ∧
    ((2 : Nat), (7:ℚ)/10 * 2) ∈
      (HybridSearch.search CircuitState.closed [(1, 1), (2, 2)]
        [(1, 3), (3, 4)]).hits ∧
    ((3 : Nat), (3:ℚ)/10 * 4) ∈
      (HybridSearch.search CircuitState.closed [(1, 1), (2, 2)]
        [(1, 3), (3, 4)]).hits :=
  ⟨(hybridSearch_combined_score CircuitState.closed [(1, 1), (2, 2)]
      [(1, 3), (3, 4)] 1 (by decide)).1 1 3 (by rfl) (by rfl),
   (hybridSearch_combined_score CircuitState.closed [(1, 1), (2, 2)]
      [(1, 3), (3, 4)] 2 (by decide)).2.1 2 (by rfl) (by rfl),
   (hybridSearch_combined_score CircuitState.closed [(1, 1), (2, 2)]
      [(1, 3), (3, 4)] 3 (by decide)).2.2 4 (by rfl) (by rfl)⟩

/-- The greedy Layer-2 selection never pushes the running total past the
available budget. -/
theorem selectLayer2_sum_le (avail : ℚ) (acc : Nat) (l : List Candidate)
    (h : (acc : ℚ) ≤ avail) :
    (acc : ℚ) +
      (((ContextAssembler.selectLayer2 avail acc l).map Candidate.layer2Cost).sum : ℚ) ≤
      avail := by
  induction l generalizing acc with
  | nil => simpa [ContextAssembler.selectLayer2] using h
  | cons c rest ih =>
    by_cases hc : ((acc + c.layer2Cost : Nat) : ℚ) ≤ avail
    · simp only [ContextAssembler.selectLayer2, if_pos hc, List.map_cons, List.sum_cons]
      have := ih (acc + c.layer2Cost) hc
      push_cast at this ⊢
      linarith
    · simp only [ContextAssembler.selectLayer2, if_neg hc, List.map_nil, List.sum_nil]
      simpa using h

/-- C3: the Layer-2 content of a loaded context never exceeds
`budgetTokens * (1 - safetyFraction)`; in the concrete scenario with a
2000-token budget, the default 0.2 safety fraction and three candidates
of Layer-2 cost 600 each, exactly the top two are expanded to Layer 2 and
the third keeps only its Layer-1 entry. -/
theorem contextAssembler_budget_bound (cands : List Candidate)
    (budgetTokens : Nat) (sf : ℚ) (hsf : sf ≤ 1) :
    ((ContextAssembler.load cands budgetTokens sf).layer2Tokens : ℚ) ≤
      budgetTokens * (1 - sf) ∧
    ContextAssembler.load [⟨1, 9/10, 600⟩, ⟨2, 8/10, 600⟩, ⟨3, 7/10, 600⟩]
        2000 (1/5) =
      { layer2Ids := [1, 2], layer1Ids := [1, 2, 3], layer2Tokens := 1200 } := by
  constructor
  · have havail : (0 : ℚ) ≤ budgetTokens * (1 - sf) :=
      mul_nonneg (by positivity) (by linarith)
    have := selectLayer2_sum_le (budgetTokens * (1 - sf)) 0 cands (by simpa using havail)
    simpa [ContextAssembler.load] using this
  · simp only [ContextAssembler.load, ContextAssembler.selectLayer2]
    norm_num

/-- Concrete instance of the C3 budget theorem (safety fraction 1, empty
candidate list), plus the fixed scenario. -/
theorem contextAssembler_budget_bound_witness :
    ((ContextAssembler.load [] 0 1).layer2Tokens : ℚ) ≤ 0 * (1 - 1) ∧
    ContextAssembler.load [⟨1, 9/10, 600⟩, ⟨2, 8/10, 600⟩, ⟨3, 7/10, 600⟩]
        2000 (1/5) =
      { layer2Ids := [1, 2], layer1Ids := [1, 2, 3], layer2Tokens := 1200 } := by
  have h := contextAssembler_budget_bound [] 0 1 (by norm_num)
  exact ⟨by simpa using h.1, h.2⟩

/-- Recording a sequence of entries appends them, changing nothing else. -/
theorem foldl_record_eq (l0 : UsageLedger) (es : List UsageEntry) :
    es.foldl UsageLedger.record l0 = { l0 with entries := l0.entries ++ es } := by
  induction es generalizing l0 with
  | nil => simp
  | cons e t ih =>
    simp only [List.foldl_cons, UsageLedger.record]
    rw [ih]
    simp

/-- C5: after any sequence of `record` calls on a fresh ledger, the daily
and monthly spend counters reported by `status()` equal the sums of the
recorded entry costs in the current day and month respectively, and the
alert level against a (nonnegative) cap is `none` strictly below 80% of
the cap, `warning` from exactly 80%, and `critical` from exactly 95%. -/
theorem usageLedger_spend_and_alerts (es : List UsageEntry) (db mb : ℚ)
    (day month : Nat) :
    (UsageLedger.status (es.foldl UsageLedger.record
        (UsageLedger.init db mb day month))).dailySpend =
      ((es.filter (fun e => e.day == day && e.month == month)).map
        UsageEntry.cost).sum ∧
    (UsageLedger.status (es.foldl UsageLedger.record
        (UsageLedger.init db mb day month))).monthlySpend =
      ((es.filter (fun e => e.month == month)).map UsageEntry.cost).sum ∧
    (∀ spend cap : ℚ, 0 ≤ cap → spend < 80/100 * cap →
      UsageLedger.levelFor spend cap = AlertLevel.none) ∧
    (∀ spend cap : ℚ, 0 ≤ cap → 80/100 * cap ≤ spend → spend < 95/100 * cap →
      UsageLedger.levelFor spend cap = AlertLevel.warning) ∧
    (∀ spend cap : ℚ, 95/100 * cap ≤ spend →
      UsageLedger.levelFor spend cap = AlertLevel.critical) := by
  rw [foldl_record_eq]
  refine ⟨?_, ?_, ?_, ?_, ?_⟩
  · simp [UsageLedger.status, UsageLedger.dailySpend, UsageLedger.init]
  · simp [UsageLedger.status, UsageLedger.monthlySpend, UsageLedger.init]
  · intro spend cap hcap hlt
    have h95 : ¬ (95/100 * cap ≤ spend) := by nlinarith
    have h80 : ¬ (80/100 * cap ≤ spend) := by linarith
    simp [UsageLedger.levelFor, h95, h80]
  · intro spend cap hcap h80 hlt
    have h95 : ¬ (95/100 * cap ≤ spend) := by linarith
    simp [UsageLedger.levelFor, h95, h80]
  · intro spend cap h95
    simp [UsageLedger.levelFor, h95]

/-- Concrete instances of the C5 ledger theorem: one matching entry and
the three alert bands at a cap of 10. -/
theorem usageLedger_spend_and_alerts_witness :
    (UsageLedger.status ([(⟨1, "parallel", 10, 20, 0, 3, 4, 6⟩ : UsageEntry)].foldl
        UsageLedger.record (UsageLedger.init 10 200 4 6))).dailySpend =
      (([(⟨1, "parallel", 10, 20, 0, 3, 4, 6⟩ : UsageEntry)].filter
        (fun e => e.day == 4 && e.month == 6)).map UsageEntry.cost).sum ∧
    UsageLedger.levelFor 7 10 = AlertLevel.none ∧
    UsageLedger.levelFor 8 10 = AlertLevel.warning ∧
    UsageLedger.levelFor (95/10) 10 = AlertLevel.critical :=
  ⟨(usageLedger_spend_and_alerts [⟨1, "parallel", 10, 20, 0, 3, 4, 6⟩] 10 200 4 6).1,
   (usageLedger_spend_and_alerts [] 10 200 4 6).2.2.1 7 10 (by norm_num) (by norm_num),
   (usageLedger_spend_and_alerts [] 10 200 4 6).2.2.2.1 8 10 (by norm_num)
     (by norm_num) (by norm_num),
   (usageLedger_spend_and_alerts [] 10 200 4 6).2.2.2.2 (95/10) 10 (by norm_num)⟩

/-- C7: after three "parallel" orchestrations with successes
true, true, false retrieved as similar history (each with a positive
similarity at most 1), the recommender ranks "parallel" with a confidence
strictly between 0 and 1 that is not the raw empirical rate 2/3 —
small-sample shrinkage is applied. -/
theorem patternRecommender_shrinkage (s1 s2 s3 : ℚ)
    (hp1 : 0 < s1) (hp2 : 0 < s2) (hp3 : 0 < s3)
    (hu1 : s1 ≤ 1) (hu2 : s2 ≤ 1) (hu3 : s3 ≤ 1) :
    ∃ c : ℚ,
      PatternRecommender.recommend
        [(⟨1, "parallel", ["a"], "similar task", "res", true, 1, 1⟩, s1),
         (⟨2, "parallel", ["a"], "similar task", "res", true, 1, 2⟩, s2),
         (⟨3, "parallel", ["a"], "similar task", "res", false, 1, 3⟩, s3)] =
        [⟨"parallel", ["a"], c⟩] ∧
      0 < c ∧ c < 1 ∧ c ≠ 2/3 := by
  have hc : PatternRecommender.shrunkRate 2 3 * ((s1 + (s2 + (s3 + 0))) / 3) =
      (s1 + s2 + s3) / 5 := by
    simp only [PatternRecommender.shrunkRate]
    push_cast
    ring
  refine ⟨PatternRecommender.shrunkRate 2 3 * ((s1 + (s2 + (s3 + 0))) / 3),
    rfl, ?_, ?_, ?_⟩
  · rw [hc]
    linarith
  · rw [hc]
    linarith
  · rw [hc]
    intro heq
    linarith

/-- Concrete instance of the C7 shrinkage theorem at similarity 9/10 for
each retrieved record. -/
theorem patternRecommender_shrinkage_witness :
    ∃ c : ℚ,
      PatternRecommender.recommend
        [(⟨1, "parallel", ["a"], "similar task", "res", true, 1, 1⟩, 9/10),
         (⟨2, "parallel", ["a"], "similar task", "res", true, 1, 2⟩, 9/10),
         (⟨3, "parallel", ["a"], "similar task", "res", false, 1, 3⟩, 9/10)] =
        [⟨"parallel", ["a"], c⟩] ∧
      0 < c ∧ c < 1 ∧ c ≠ 2/3 :=
  patternRecommender_shrinkage (9/10) (9/10) (9/10) (by norm_num) (by norm_num)
    (by norm_num) (by norm_num) (by norm_num) (by norm_num)
